import Mathlib

/-!
Verification of `ceph/rados/core_workflows.py` (class `RadosOrchestrator`).

Each Python method relevant to the claims is shallowly embedded as an
executable Lean function.  External effects (command transport, the cluster's
replies) are passed in as explicit scripted inputs; Python exceptions are
modelled with `Except`/`Option` result types.
-/

/-- Python exception kinds that the embedded code can raise.
`jsonDecodeError` models `json.JSONDecodeError` (a `ValueError`) raised by
`json.loads`; `nameError` models `NameError` raised when a local variable is
referenced before assignment. -/
inductive PyError where
  | jsonDecodeError
  | nameError
  deriving DecidableEq

/-- JSON documents, as produced by Python's `json.loads`: objects are ordered
field lists, numbers keep their source lexeme (their numeric value is never
inspected by the code under verification). -/
inductive Json where
  | null
  | bool (b : Bool)
  | num (lexeme : String)
  | str (s : String)
  | arr (elems : List Json)
  | obj (fields : List (String × Json))

/-- Whitespace characters accepted between JSON tokens (RFC 8259 / Python
`json`): space, tab, newline, carriage return. -/
def jsonWs (c : Char) : Bool :=
  c = ' ' ∨ c = '\t' ∨ c = '\n' ∨ c = '\r'

/-- Drop leading JSON whitespace. -/
def skipWs : List Char → List Char
  | [] => []
  | c :: cs => if jsonWs c then skipWs cs else c :: cs

/-- Characters for which Python's `str.isspace` is true (ASCII fragment:
space, tab, newline, carriage return, vertical tab, form feed; the rarely
seen extra Unicode space characters are not modelled). -/
def pyWs (c : Char) : Bool :=
  c = ' ' ∨ c = '\t' ∨ c = '\n' ∨ c = '\r' ∨ c = '\x0b' ∨ c = '\x0c'

/-- Python's `str.isspace()`: true iff the string is NON-empty and every
character is whitespace.  In particular `"".isspace()` is `False`. -/
def pyIsSpace (s : String) : Bool :=
  !s.isEmpty && s.toList.all pyWs

/-- Translation of a single JSON string escape character (`\n`, `\t`, ...).
Simplification of Python `json`: invalid escapes and `\uXXXX` decoding are
not modelled (no input in this development contains escapes). -/
def unescape : Char → Char
  | 'n' => '\n'
  | 't' => '\t'
  | 'r' => '\r'
  | 'b' => '\x08'
  | 'f' => '\x0c'
  | c => c

/-- Scan the body of a JSON string literal after the opening quote,
accumulating decoded characters; errors on an unterminated literal. -/
def parseStrAux : Nat → List Char → List Char → Except PyError (String × List Char)
  | 0, _, _ => .error .jsonDecodeError
  | _ + 1, _, [] => .error .jsonDecodeError
  | fuel + 1, acc, c :: cs =>
    if c = '"' then .ok (String.mk acc.reverse, cs)
    else if c = '\\' then
      match cs with
      | [] => .error .jsonDecodeError
      | e :: cs2 => parseStrAux fuel (unescape e :: acc) cs2
    else parseStrAux fuel (c :: acc) cs

/-- Decimal digit test. -/
def isDigit (c : Char) : Bool := '0' ≤ c ∧ c ≤ '9'

/-- Split off a (possibly empty) run of leading decimal digits. -/
def takeDigits : List Char → List Char × List Char
  | [] => ([], [])
  | c :: cs =>
    if isDigit c then
      let p := takeDigits cs
      (c :: p.1, p.2)
    else ([], c :: cs)

/-- Integer part of a JSON number: `0`, or a nonzero digit followed by
digits (JSON forbids leading zeros). -/
def parseIntPart : List Char → Except PyError (List Char × List Char)
  | [] => .error .jsonDecodeError
  | c :: cs =>
    if c = '0' then .ok ([c], cs)
    else if isDigit c then
      let p := takeDigits cs
      .ok (c :: p.1, p.2)
    else .error .jsonDecodeError

/-- Optional fraction part `.digits` of a JSON number. -/
def parseFracPart : List Char → Except PyError (List Char × List Char)
  | '.' :: cs =>
    match takeDigits cs with
    | ([], _) => .error .jsonDecodeError
    | (ds, rest) => .ok ('.' :: ds, rest)
  | cs => .ok ([], cs)

/-- Optional exponent part `e[+-]digits` of a JSON number. -/
def parseExpPart : List Char → Except PyError (List Char × List Char)
  | c :: cs =>
    if c = 'e' ∨ c = 'E' then
      let p :=
        match cs with
        | s :: cs2 => if s = '+' ∨ s = '-' then ([c, s], cs2) else ([c], cs)
        | [] => ([c], cs)
      match takeDigits p.2 with
      | ([], _) => .error .jsonDecodeError
      | (ds, rest) => .ok (p.1 ++ ds, rest)
    else .ok ([], c :: cs)
  | [] => .ok ([], [])

/-- Parse a JSON number (grammar `-?(0|[1-9][0-9]*)(\.[0-9]+)?([eE][+-]?[0-9]+)?`),
returning its lexeme. -/
def parseNum (cs : List Char) : Except PyError (String × List Char) :=
  let sp : List Char × List Char :=
    match cs with
    | '-' :: cs2 => (['-'], cs2)
    | _ => ([], cs)
  match parseIntPart sp.2 with
  | .error e => .error e
  | .ok (ip, r1) =>
    match parseFracPart r1 with
    | .error e => .error e
    | .ok (fp, r2) =>
      match parseExpPart r2 with
      | .error e => .error e
      | .ok (ep, r3) => .ok (String.mk (sp.1 ++ ip ++ fp ++ ep), r3)

/-- Consume an expected literal tail (e.g. `ull` after `n`). -/
def dropLit : List Char → List Char → Option (List Char)
  | [], cs => some cs
  | _ :: _, [] => none
  | l :: ls, c :: cs => if c = l then dropLit ls cs else none

/-- Mode of the recursive-descent JSON reader: a single value, the tail of an
array after its first element position, or the tail of an object. -/
inductive PMode where
  | value
  | arrTail (acc : List Json)
  | objTail (acc : List (String × Json))

/-- Fuel-indexed recursive-descent reader for JSON values, arrays and
objects (the shallow embedding of the decoder inside Python `json.loads`). -/
def parseP : Nat → PMode → List Char → Except PyError (Json × List Char)
  | 0, _, _ => .error .jsonDecodeError
  | fuel + 1, .value, cs =>
    match cs with
    | [] => .error .jsonDecodeError
    | c :: rest =>
      if c = 'n' then
        match dropLit ['u', 'l', 'l'] rest with
        | some r => .ok (Json.null, r)
        | none => .error .jsonDecodeError
      else if c = 't' then
        match dropLit ['r', 'u', 'e'] rest with
        | some r => .ok (Json.bool true, r)
        | none => .error .jsonDecodeError
      else if c = 'f' then
        match dropLit ['a', 'l', 's', 'e'] rest with
        | some r => .ok (Json.bool false, r)
        | none => .error .jsonDecodeError
      else if c = '"' then
        match parseStrAux (rest.length + 1) [] rest with
        | .error e => .error e
        | .ok (s, r) => .ok (Json.str s, r)
      else if c = '-' ∨ isDigit c then
        match parseNum (c :: rest) with
        | .error e => .error e
        | .ok (lx, r) => .ok (Json.num lx, r)
      else if c = '[' then
        match skipWs rest with
        | ']' :: r2 => .ok (Json.arr [], r2)
        | r => parseP fuel (.arrTail []) r
      else if c = '{' then
        match skipWs rest with
        | '}' :: r2 => .ok (Json.obj [], r2)
        | r => parseP fuel (.objTail []) r
      else .error .jsonDecodeError
  | fuel + 1, .arrTail acc, cs =>
    match parseP fuel .value cs with
    | .error e => .error e
    | .ok (v, r) =>
      match skipWs r with
      | ',' :: r2 => parseP fuel (.arrTail (v :: acc)) (skipWs r2)
      | ']' :: r2 => .ok (Json.arr (v :: acc).reverse, r2)
      | _ => .error .jsonDecodeError
  | fuel + 1, .objTail acc, cs =>
    match cs with
    | '"' :: rest =>
      match parseStrAux (rest.length + 1) [] rest with
      | .error e => .error e
      | .ok (k, r) =>
        match skipWs r with
        | ':' :: r2 =>
          match parseP fuel .value (skipWs r2) with
          | .error e => .error e
          | .ok (v, r3) =>
            match skipWs r3 with
            | ',' :: r4 => parseP fuel (.objTail ((k, v) :: acc)) (skipWs r4)
            | '}' :: r4 => .ok (Json.obj ((k, v) :: acc).reverse, r4)
            | _ => .error .jsonDecodeError
        | _ => .error .jsonDecodeError
    | _ => .error .jsonDecodeError

/-- Shallow embedding of Python's `json.loads`: strict decoding of the whole
string, failing with `jsonDecodeError` on empty input, garbage, or trailing
data. -/
def json_loads (s : String) : Except PyError Json :=
  match parseP (2 * s.length + 4) .value (skipWs s.toList) with
  | .error e => .error e
  | .ok (v, rest) => if skipWs rest = [] then .ok v else .error .jsonDecodeError

/-- Outcome of the underlying transport call (`self.node.shell` /
`exec_command`) inside `run_ceph_command`: either stdout text, or a raised
exception with its message. -/
inductive ExecOutcome where
  | ok (out : String)
  | raises (msg : String)

/-- Shallow embedding of `RadosOrchestrator.run_ceph_command`
(core_workflows.py lines 147-170), with the transport outcome scripted.
The code appends `-f json`, runs the command inside `try/except Exception`
(logging and returning `None` on any exception), returns `{}` when
`out.isspace()` is true, and otherwise returns `json.loads(out)` — whose
decode error, if any, propagates to the caller. -/
def run_ceph_command : ExecOutcome → Except PyError (Option Json)
  | .raises _ => .ok none
  | .ok out =>
    if pyIsSpace out then .ok (some (Json.obj []))
    else
      match json_loads out with
      | .error e => .error e
      | .ok j => .ok (some j)

/-- One entry of the `pg_stats` array of `ceph pg dump pgs`: its `pgid` and
`state` fields (the only ones `check_pg_state` reads). -/
structure PGStat where
  pgid : String
  state : String
  deriving DecidableEq

/-- Return value of `check_pg_state`: either the `state` field of the first
matching PG (a string in the cluster's report), or the literal empty list
`[]` that the method returns when no PG matches. -/
inductive PgStateResult where
  | stateOf (s : String)
  | emptyList
  deriving DecidableEq

/-- Shallow embedding of `RadosOrchestrator.check_pg_state`
(core_workflows.py lines 64-82), with the fetched `pg_stats` list scripted:
scan the entries in order and return the first matching PG's `state`,
or `[]` (after logging an error) when none matches. -/
def check_pg_state (pgid : String) (pg_stats : List PGStat) : PgStateResult :=
  match pg_stats.find? (fun pg => pg.pgid == pgid) with
  | some pg => .stateOf pg.state
  | none => .emptyList

/-- Splitting on a separator character, accumulator form: models Python's
`str.split(sep)` (no collapsing of empty fields). -/
def pySplitAux (sep : Char) : List Char → List Char → List String
  | [], acc => [String.mk acc.reverse]
  | c :: cs, acc =>
    if c = sep then String.mk acc.reverse :: pySplitAux sep cs []
    else pySplitAux sep cs (c :: acc)

/-- Python's `str.split(sep)` for a one-character separator. -/
def pySplit (sep : Char) (s : String) : List String :=
  pySplitAux sep s.toList []

/-- Per-entry verdict computed in the loop body of `verify_reweight`
(lines 945-954): `False` iff some `+`-separated component of the entry's
`state` string is `remapped` or `backfilling`. -/
def vrEntryFlag (state : String) : Bool :=
  !(pySplit '+' state).any (fun key => key = "remapped" ∨ key = "backfilling")

/-- Value of the Python local `flag` after the `for entry in
status_report["num_pg_by_state"]` loop: each iteration overwrites `flag`
with the current entry's verdict, so the last entry wins; an empty entry
list leaves `flag` at its previous binding (`none` = still unassigned). -/
def vrReportFlag (entries : List String) (prev : Option Bool) : Option Bool :=
  entries.foldl (fun _ st => some (vrEntryFlag st)) prev

/-- Verdict a (non-empty) fetched report yields on its own: the last
entry's verdict. -/
def vrVerdict (entries : List String) : Bool :=
  (vrReportFlag entries none).getD false

/-- Result of the polling `while` loop of `verify_reweight`:
`nameError` when the unassigned local `flag` is referenced, `scriptEnded`
when the scripted report sequence is exhausted before the loop exits (a
model artifact, excluded by hypotheses), and otherwise the exit value of
`flag` plus the last fetched report, the number of fetches, the number of
`time.sleep(60)` calls, and the elapsed time in seconds. -/
inductive VrResult where
  | nameError
  | scriptEnded
  | exited (flag : Bool) (last : Option (List String)) (fetches sleeps elapsed : Nat)
  deriving DecidableEq

/-- Shallow embedding of the polling loop of `RadosOrchestrator.verify_reweight`
(core_workflows.py lines 941-964).  Each fetched report is its
`num_pg_by_state` entry list (the `state` strings).  Time is modelled
discretely: fetches are instantaneous and each `time.sleep(60)` advances the
clock by 60; `endT` is the 1200-second deadline.  The loop breaks (without
sleeping) as soon as `flag` is true, and exits when the deadline has
passed. -/
def vrLoop : List (List String) → Nat → Nat → Option Bool → Option (List String) → Nat → Nat → VrResult
  | [], t, endT, flag, last, fetches, sleeps =>
    if t < endT then .scriptEnded
    else
      match flag with
      | none => .nameError
      | some b => .exited b last fetches sleeps t
  | entries :: rest, t, endT, flag, last, fetches, sleeps =>
    if t < endT then
      match vrReportFlag entries flag with
      | none => .nameError
      | some b =>
        if b then .exited true (some entries) (fetches + 1) sleeps t
        else vrLoop rest (t + 60) endT (some b) (some entries) (fetches + 1) (sleeps + 1)
    else
      match flag with
      | none => .nameError
      | some b => .exited b last fetches sleeps t

/-- One row of `ceph osd df tree` output: the `id` and `kb_used` fields
(the only ones `verify_reweight` reads). -/
structure OsdNode where
  id : Int
  kb_used : Int
  deriving DecidableEq

/-- Shallow embedding of `RadosOrchestrator.verify_reweight`
(core_workflows.py lines 931-987), with the loop's fetched reports and the
final `ceph osd df tree` node list scripted.  `none` marks the scripted
reports running out (model artifact).  After the loop: if `flag` is false
the method returns `False`; otherwise it compares `kb_used` of each
affected OSD before and after and returns `False` iff some affected OSD's
initial `kb_used` exceeds its final `kb_used`, else `True`. -/
def verify_reweight (reports : List (List String)) (affected_osds : List Int)
    (osd_info : List OsdNode) (nodes_end : List OsdNode) :
    Option (Except PyError Bool) :=
  match vrLoop reports 0 1200 none none 0 0 with
  | .scriptEnded => none
  | .nameError => some (.error .nameError)
  | .exited flag _ _ _ _ =>
    if !flag then some (.ok false)
    else
      let osd_info_end := nodes_end.filter (fun e => affected_osds.contains e.id)
      if osd_info_end.any (fun oe =>
          osd_info.any (fun oi => oi.id == oe.id && decide (oe.kb_used < oi.kb_used)))
      then some (.ok false)
      else some (.ok true)

/-- Health-warning codes scanned for by `run_pool_sanity_check`
(core_workflows.py lines 1611-1627). -/
def health_warns : List String :=
  ["PG_AVAILABILITY", "PG_DEGRADED", "PG_RECOVERY_FULL", "TOO_FEW_OSDS",
   "PG_BACKFILL_FULL", "PG_DAMAGED", "OSD_SCRUB_ERRORS",
   "OSD_TOO_MANY_REPAIRS", "CACHE_POOL_NEAR_FULL", "SMALLER_PGP_NUM",
   "MANY_OBJECTS_PER_PG", "OBJECT_MISPLACED", "OBJECT_UNFOUND", "SLOW_OPS",
   "RECENT_CRASH"]

/-- Per-iteration verdict of `run_pool_sanity_check` (lines 1629-1635):
true iff none of the keys of `status_report["health"]["checks"]` is a
listed health warning. -/
def pscPred (checkKeys : List String) : Bool :=
  !checkKeys.any (fun key => health_warns.contains key)

/-- Result of the polling loop of `run_pool_sanity_check`: `scriptEnded`
when the scripted reports run out (model artifact), else the exit value of
`flag`, the number of fetches, the number of `time.sleep(10)` calls, and
the elapsed time in seconds. -/
inductive PscResult where
  | scriptEnded
  | done (flag : Bool) (fetches sleeps elapsed : Nat)
  deriving DecidableEq

/-- Shallow embedding of the polling loop of
`RadosOrchestrator.run_pool_sanity_check` (core_workflows.py lines
1606-1643).  Each fetched report is the key list of
`status_report["health"]["checks"]`.  `flag` starts `False` (line 1607);
the loop breaks without sleeping when `flag` becomes true, and exits once
the 600-second deadline has passed, each failed iteration sleeping 10
seconds. -/
def pscLoop : List (List String) → Nat → Nat → Bool → Nat → Nat → PscResult
  | [], t, endT, flag, fetches, sleeps =>
    if t < endT then .scriptEnded else .done flag fetches sleeps t
  | checkKeys :: rest, t, endT, flag, fetches, sleeps =>
    if t < endT then
      if pscPred checkKeys then .done true (fetches + 1) sleeps t
      else pscLoop rest (t + 10) endT (pscPred checkKeys) (fetches + 1) (sleeps + 1)
    else .done flag fetches sleeps t

/-- Shallow embedding of `RadosOrchestrator.run_pool_sanity_check`
(core_workflows.py lines 1589-1652) from the start of its polling loop:
after the loop the method returns `False` when `flag` is false (timeout
with warnings still present) and `True` otherwise.  `none` marks the
scripted reports running out. -/
def run_pool_sanity_check (reports : List (List String)) : Option Bool :=
  match pscLoop reports 0 600 false 0 0 with
  | .scriptEnded => none
  | .done flag _ _ _ => some flag

/-- Result of `host_maintenance_enter`: `returned b sleeps` for an explicit
`return` after `sleeps` individual `time.sleep` calls, `fellOff` when the
`while` loop's condition fails and the method implicitly returns `None`,
`scriptEnded` when the scripted status checks run out (model artifact). -/
inductive HostResult where
  | returned (b : Bool) (sleeps : Nat)
  | fellOff (sleeps : Nat)
  | scriptEnded
  deriving DecidableEq

/-- Shallow embedding of the retry loop of
`RadosOrchestrator.host_maintenance_enter` (core_workflows.py lines
303-322), with the scripted results of `check_host_status` as a list.
Each iteration issues the maintenance-enter command, performs
`time.sleep(20)`, and only then checks the host status; a failed check is
followed by a further `time.sleep(15)` and, when `iteration == retry`,
`return False`. -/
def hostLoop : List Bool → Nat → Nat → Nat → HostResult
  | [], iteration, retry, sleeps =>
    if iteration ≤ retry then .scriptEnded else .fellOff sleeps
  | c :: rest, iteration, retry, sleeps =>
    if iteration ≤ retry then
      if c then .returned true (sleeps + 1)
      else if iteration + 1 = retry then .returned false (sleeps + 2)
      else hostLoop rest (iteration + 1) retry (sleeps + 2)
    else .fellOff sleeps

/-- Entry point of `host_maintenance_enter`: `iteration` starts at 0 with
no sleeps performed. -/
def host_maintenance_enter (retry : Nat) (checks : List Bool) : HostResult :=
  hostLoop checks 0 retry 0

/-- Administrative commands issued (as opposed to read-only fetches) by
`detete_pool`, kept symbolic so command traces can be inspected. -/
inductive CephCmd where
  | configSetAllowDelete
  | poolDelete (pool : String)
  deriving DecidableEq

/-- Cluster state visible to `detete_pool`: the option names present in
`ceph config dump` and the pool names present in `ceph df`. -/
structure Cluster where
  confNames : List String
  pools : List String
  deriving DecidableEq

/-- Shallow embedding of `RadosOrchestrator.detete_pool` (core_workflows.py
lines 989-1015; the method name's typo is the source's), against a cluster
that honors issued commands.  Steps: ensure `mon_allow_pool_delete` is
present in the config dump (setting it if absent); if the pool is not in
`ceph df`'s pool list, log an error and return `True` without issuing the
delete; otherwise issue the delete, re-fetch the pool list, and return
`True` iff the pool is gone.  Returns the method's boolean, the trace of
issued (mutating) commands, and the resulting cluster state. -/
def detete_pool (pool : String) (c : Cluster) : Bool × List CephCmd × Cluster :=
  let step1 : List CephCmd × Cluster :=
    if c.confNames.contains "mon_allow_pool_delete" then ([], c)
    else ([CephCmd.configSetAllowDelete],
          { c with confNames := "mon_allow_pool_delete" :: c.confNames })
  let c1 := step1.2
  if c1.pools.contains pool then
    let c2 := { c1 with pools := c1.pools.erase pool }
    let cmds := step1.1 ++ [CephCmd.poolDelete pool]
    if c2.pools.contains pool then (false, cmds, c2) else (true, cmds, c2)
  else (true, step1.1, c1)

/-- Shallow embedding of `RadosOrchestrator.check_fragmentation_score`
(core_workflows.py lines 1848-1867), with the fetched fragmentation score
scripted (Python floats modelled as rationals): return `False` iff
`0.9 < score < 1.0`, else `True`. -/
def check_fragmentation_score (score : ℚ) : Bool :=
  if 9 / 10 < score ∧ score < 1 then false else true

/-! ## Helper lemmas about the embedded loops -/

/-- Folding the flag-overwriting assignment of `verify_reweight`'s inner
`for` loop over a list started from an assigned flag always yields an
assigned flag. -/
lemma vrFoldl_some (xs : List String) : ∀ (a : Bool),
    xs.foldl (fun _ st => some (vrEntryFlag st)) (some a)
      = some (xs.foldl (fun _ st => vrEntryFlag st) a) := by
  induction xs with
  | nil => intro a; rfl
  | cons x xs ih => intro a; simpa using ih (vrEntryFlag x)

/-- For a non-empty entry list the flag left by `verify_reweight`'s inner
`for` loop is the last entry's verdict, regardless of the previous flag
binding. -/
lemma vrReportFlag_eq_verdict (x : String) (xs : List String) (prev : Option Bool) :
    vrReportFlag (x :: xs) prev = some (vrVerdict (x :: xs)) := by
  simp only [vrReportFlag, vrVerdict, List.foldl_cons, vrFoldl_some, Option.getD_some]

/-- Once the deadline has passed and the flag is assigned, `vrLoop` exits
with the current flag value. -/
lemma vrLoop_done (reports : List (List String)) (t endT : Nat) (b : Bool)
    (last : Option (List String)) (fetches sleeps : Nat) (h : ¬ t < endT) :
    vrLoop reports t endT (some b) last fetches sleeps = .exited b last fetches sleeps t := by
  cases reports <;> simp [vrLoop, h]

/-- Determinism of `verify_reweight`'s polling loop on a scripted report
sequence whose prefix `pre` yields only false verdicts and whose next
report `rk` yields a true verdict: the loop breaks right after fetching
`rk`, having slept exactly `pre.length` times. -/
lemma vrLoop_firstTrue (pre : List (List String)) :
    ∀ (rk : List String) (rest : List (List String)) (j fetches sleeps : Nat)
      (flag : Option Bool) (last : Option (List String)),
    (∀ r ∈ pre, r ≠ [] ∧ vrVerdict r = false) →
    rk ≠ [] → vrVerdict rk = true → j + pre.length < 20 →
    vrLoop (pre ++ rk :: rest) (60 * j) 1200 flag last fetches sleeps
      = .exited true (some rk) (fetches + pre.length + 1) (sleeps + pre.length)
          (60 * (j + pre.length)) := by
  induction pre with
  | nil =>
    intro rk rest j fetches sleeps flag last hpre hrk hrkT hj
    obtain ⟨x, xs, rfl⟩ : ∃ x xs, rk = x :: xs := by
      cases rk with
      | nil => exact absurd rfl hrk
      | cons x xs => exact ⟨x, xs, rfl⟩
    simp only [List.nil_append, List.length_nil, Nat.add_zero] at hj ⊢
    simp [vrLoop, if_pos (by omega : 60 * j < 1200), vrReportFlag_eq_verdict, hrkT]
  | cons p pre ih =>
    intro rk rest j fetches sleeps flag last hpre hrk hrkT hj
    obtain ⟨y, ys, rfl⟩ : ∃ y ys, p = y :: ys := by
      cases p with
      | nil => exact absurd rfl (hpre [] (List.mem_cons_self _ _)).1
      | cons y ys => exact ⟨y, ys, rfl⟩
    have hpf : vrVerdict (y :: ys) = false := (hpre _ (List.mem_cons_self _ _)).2
    have ht : 60 * j < 1200 := by
      simp only [List.length_cons] at hj; omega
    simp only [List.cons_append]
    simp only [vrLoop, if_pos ht, vrReportFlag_eq_verdict, hpf,
      if_neg (Bool.false_ne_true)]
    have harg : 60 * j + 60 = 60 * (j + 1) := by omega
    rw [harg]
    have := ih rk rest (j + 1) (fetches + 1) (sleeps + 1) (some false) (some (y :: ys))
      (fun r hr => hpre r (List.mem_cons_of_mem _ hr)) hrk hrkT
      (by simp only [List.length_cons] at hj; omega)
    rw [this]
    congr 1 <;> simp [List.length_cons] <;> omega

/-- Timeout behavior of `verify_reweight`'s polling loop: on a scripted
sequence of non-empty reports with only false verdicts, starting `n`
intervals before the 1200-second deadline, the loop exits normally with
flag `false` after `n` more fetches and `n` more sleeps, at elapsed time
1200 — no exception. -/
lemma vrLoop_allFalse : ∀ (n : Nat), 1 ≤ n → n ≤ 20 →
    ∀ (reports : List (List String)) (flag : Option Bool) (last : Option (List String))
      (fetches sleeps : Nat),
    (∀ r ∈ reports, r ≠ [] ∧ vrVerdict r = false) → n ≤ reports.length →
    ∃ l, vrLoop reports (60 * (20 - n)) 1200 flag last fetches sleeps
      = .exited false l (fetches + n) (sleeps + n) 1200 := by
  intro n hn
  induction n, hn using Nat.le_induction with
  | base =>
    intro _ reports flag last fetches sleeps hall hlen
    obtain ⟨r, rest, rfl⟩ : ∃ r rest, reports = r :: rest := by
      cases reports with
      | nil => simp at hlen
      | cons r rest => exact ⟨r, rest, rfl⟩
    obtain ⟨y, ys, rfl⟩ : ∃ y ys, r = y :: ys := by
      cases r with
      | nil => exact absurd rfl (hall [] (List.mem_cons_self _ _)).1
      | cons y ys => exact ⟨y, ys, rfl⟩
    have hpf : vrVerdict (y :: ys) = false := (hall _ (List.mem_cons_self _ _)).2
    refine ⟨some (y :: ys), ?_⟩
    simp only [vrLoop, if_pos (by omega : 60 * (20 - 1) < 1200),
      vrReportFlag_eq_verdict, hpf, if_neg (Bool.false_ne_true)]
    have harg : 60 * (20 - 1) + 60 = 1200 := by omega
    rw [harg, vrLoop_done _ _ _ _ _ _ _ (by omega)]
  | succ n hn ih =>
    intro h20 reports flag last fetches sleeps hall hlen
    obtain ⟨r, rest, rfl⟩ : ∃ r rest, reports = r :: rest := by
      cases reports with
      | nil => simp at hlen
      | cons r rest => exact ⟨r, rest, rfl⟩
    obtain ⟨y, ys, rfl⟩ : ∃ y ys, r = y :: ys := by
      cases r with
      | nil => exact absurd rfl (hall [] (List.mem_cons_self _ _)).1
      | cons y ys => exact ⟨y, ys, rfl⟩
    have hpf : vrVerdict (y :: ys) = false := (hall _ (List.mem_cons_self _ _)).2
    have ht : 60 * (20 - (n + 1)) < 1200 := by omega
    simp only [vrLoop, if_pos ht, vrReportFlag_eq_verdict, hpf,
      if_neg (Bool.false_ne_true)]
    have harg : 60 * (20 - (n + 1)) + 60 = 60 * (20 - n) := by omega
    rw [harg]
    obtain ⟨l, hl⟩ := ih (by omega) rest (some false) (some (y :: ys)) (fetches + 1)
      (sleeps + 1) (fun r hr => hall r (List.mem_cons_of_mem _ hr))
      (by simp only [List.length_cons] at hlen; omega)
    refine ⟨l, ?_⟩
    rw [hl]
    congr 1 <;> omega

/-- Timeout behavior of `run_pool_sanity_check`'s polling loop: with every
fetched report containing a listed health warning, starting `n` intervals
before the 600-second deadline, the loop performs `n` more fetches and `n`
more sleeps and exits at elapsed time 600 with flag `false`. -/
lemma pscLoop_allFalse : ∀ (n : Nat), n ≤ 60 →
    ∀ (reports : List (List String)) (flag : Bool) (fetches sleeps : Nat),
    (∀ r ∈ reports, pscPred r = false) → n ≤ reports.length →
    pscLoop reports (10 * (60 - n)) 600 flag fetches sleeps
      = .done (if 0 < n then false else flag) (fetches + n) (sleeps + n) 600 := by
  intro n
  induction n with
  | zero =>
    intro _ reports flag fetches sleeps hall hlen
    have h : ¬ 10 * (60 - 0) < 600 := by omega
    cases reports <;> simp [pscLoop, h]
  | succ n ih =>
    intro h60 reports flag fetches sleeps hall hlen
    obtain ⟨r, rest, rfl⟩ : ∃ r rest, reports = r :: rest := by
      cases reports with
      | nil => simp at hlen
      | cons r rest => exact ⟨r, rest, rfl⟩
    have hr : pscPred r = false := hall r (List.mem_cons_self _ _)
    have ht : 10 * (60 - (n + 1)) < 600 := by omega
    simp only [pscLoop, if_pos ht, hr, if_neg (Bool.false_ne_true)]
    have harg : 10 * (60 - (n + 1)) + 10 = 10 * (60 - n) := by omega
    rw [harg]
    rw [ih (by omega) rest false (fetches + 1) (sleeps + 1)
      (fun r hr => hall r (List.mem_cons_of_mem _ hr))
      (by simp only [List.length_cons] at hlen; omega)]
    congr 1 <;> first
      | (simp only [if_pos (Nat.succ_pos n)]; split <;> rfl)
      | omega

/-- Sleep count of `host_maintenance_enter`'s retry loop when the scripted
status checks are false `k` times and then true: every iteration sleeps
20 seconds before its check and a further 15 seconds after a failed check,
so success comes after `2 * k + 1` sleep calls. -/
lemma hostLoop_firstTrue : ∀ (k : Nat) (rest : List Bool) (iteration retry sleeps : Nat),
    iteration + k < retry →
    hostLoop (List.replicate k false ++ true :: rest) iteration retry sleeps
      = .returned true (sleeps + 2 * k + 1) := by
  intro k
  induction k with
  | zero =>
    intro rest iteration retry sleeps h
    simp [hostLoop, Nat.le_of_lt (by omega : iteration < retry)]
  | succ k ih =>
    intro rest iteration retry sleeps h
    have h1 : iteration ≤ retry := by omega
    have h2 : ¬ iteration + 1 = retry := by omega
    simp only [List.replicate_succ, List.cons_append, hostLoop, if_pos h1,
      Bool.false_eq_true, if_false, if_neg h2, List.append_eq]
    rw [ih rest (iteration + 1) retry (sleeps + 2) (by omega)]
    congr 1
    omega

/-! ## Claim theorems -/

/-- Claim C1, counterexample: the claim says every empty or whitespace-only
raw output yields an empty document and never an error, but on the empty
string `"".isspace()` is `False` in Python, so `run_ceph_command` falls
through to `json.loads("")`, which raises a decode error. -/
theorem run_ceph_command_empty_output_raises :
    run_ceph_command (.ok "") = .error .jsonDecodeError := by rfl

/-- Claim C1, amended: every raw output that consists only of whitespace
and contains at least one character makes `run_ceph_command` return the
empty document `{}` without error; the empty raw output instead reaches
`json.loads` and raises a decode error. -/
theorem run_ceph_command_blank_output (out : String) (h : pyIsSpace out = true) :
    run_ceph_command (.ok out) = .ok (some (Json.obj []))
    ∧ run_ceph_command (.ok "") = .error .jsonDecodeError := by
  refine ⟨?_, rfl⟩
  simp [run_ceph_command, h]

/-- Witness for `run_ceph_command_blank_output` at the whitespace-only
output `" \n"`. -/
theorem run_ceph_command_blank_output_witness :
    pyIsSpace " \n" = true
    ∧ run_ceph_command (.ok " \n") = .ok (some (Json.obj []))
    ∧ run_ceph_command (.ok "") = .error .jsonDecodeError :=
  ⟨rfl, (run_ceph_command_blank_output " \n" rfl).1,
   (run_ceph_command_blank_output " \n" rfl).2⟩

/-- Claim C2, counterexample: the claim says a transport failure is always
propagated to the caller, but `run_ceph_command` wraps execution in
`try/except Exception`, logs, and returns `None` — a non-error return
value. -/
theorem run_ceph_command_exec_error_swallowed :
    run_ceph_command (.raises "Error 110: Connection timed out") = .ok none
    ∧ ∀ e : PyError,
        run_ceph_command (.raises "Error 110: Connection timed out") ≠ .error e :=
  ⟨rfl, fun _ h => by simp [run_ceph_command] at h⟩

/-- Claim C2, amended: whenever the underlying transport call raises,
`run_ceph_command` catches the exception and returns `None`; the failure
is signalled only through that `None` return, never re-raised. -/
theorem run_ceph_command_exec_error_returns_none (msg : String) :
    run_ceph_command (.raises msg) = .ok none
    ∧ ∀ e : PyError, run_ceph_command (.raises msg) ≠ .error e :=
  ⟨rfl, fun _ h => by simp [run_ceph_command] at h⟩

/-- Claim C3, counterexample: the claim says every non-empty raw output
that is not valid JSON fails with a decode error, but a whitespace-only
output such as `" "` is non-empty and not valid JSON, yet
`run_ceph_command` returns the empty document for it without error. -/
theorem run_ceph_command_whitespace_not_json_ok :
    (" " : String) ≠ ""
    ∧ json_loads " " = .error .jsonDecodeError
    ∧ run_ceph_command (.ok " ") = .ok (some (Json.obj [])) :=
  ⟨by decide, rfl, rfl⟩

/-- Claim C3, amended: every raw output that is not whitespace-only and is
not valid JSON makes `run_ceph_command` fail with the JSON decode error,
with no document returned to the caller. -/
theorem run_ceph_command_malformed_raises (out : String)
    (h1 : pyIsSpace out = false) (h2 : json_loads out = .error .jsonDecodeError) :
    run_ceph_command (.ok out) = .error .jsonDecodeError := by
  simp [run_ceph_command, h1, h2]

/-- Witness for `run_ceph_command_malformed_raises` at the malformed
output `"not json"`. -/
theorem run_ceph_command_malformed_raises_witness :
    pyIsSpace "not json" = false
    ∧ json_loads "not json" = .error .jsonDecodeError
    ∧ run_ceph_command (.ok "not json") = .error .jsonDecodeError :=
  ⟨rfl, rfl, run_ceph_command_malformed_raises "not json" rfl rfl⟩

/-- Claim C4, counterexample: with a scripted check sequence whose first
check already succeeds (`k = 0`), the claim demands success after exactly
0 sleeps, but `host_maintenance_enter` performs its 20-second sleep before
the first status check and so returns success after 1 sleep call. -/
theorem host_maintenance_enter_sleeps_before_first_check :
    host_maintenance_enter 10 [true] = .returned true 1
    ∧ HostResult.returned true 1 ≠ HostResult.returned true 0 :=
  ⟨rfl, by decide⟩

/-- Claim C4, amended: for a scripted fetch sequence whose first `k`
reports yield a false verdict and whose `(k+1)`-st yields a true verdict,
`verify_reweight`'s polling loop returns success with last state `Sk`
immediately after the `(k+1)`-st fetch with exactly `k` sleeps and no
sleep before the first check; `host_maintenance_enter`, by contrast,
sleeps before every check and again after every failed check, returning
success only after `2 * k + 1` sleep calls. -/
theorem poller_first_true_counts (pre : List (List String)) (rk : List String)
    (rest : List (List String)) (hrest : List Bool) (retry : Nat)
    (hpre : ∀ r ∈ pre, r ≠ [] ∧ vrVerdict r = false)
    (hrk : rk ≠ []) (hrkT : vrVerdict rk = true)
    (hk : pre.length < 20) (hretry : pre.length < retry) :
    vrLoop (pre ++ rk :: rest) 0 1200 none none 0 0
      = .exited true (some rk) (pre.length + 1) pre.length (60 * pre.length)
    ∧ host_maintenance_enter retry (List.replicate pre.length false ++ true :: hrest)
      = .returned true (2 * pre.length + 1) := by
  constructor
  · have := vrLoop_firstTrue pre rk rest 0 0 0 none none hpre hrk hrkT (by omega)
    simpa using this
  · have := hostLoop_firstTrue pre.length hrest 0 retry 0 (by omega)
    simpa [host_maintenance_enter] using this

/-- Witness for `poller_first_true_counts` with one failing report
(`k = 1`) before the succeeding one. -/
theorem poller_first_true_counts_witness :
    vrVerdict ["backfilling"] = false
    ∧ vrVerdict ["active+clean"] = true
    ∧ vrLoop [["backfilling"], ["active+clean"]] 0 1200 none none 0 0
        = .exited true (some ["active+clean"]) 2 1 60
    ∧ host_maintenance_enter 10 [false, true] = .returned true 3 := by
  have h := poller_first_true_counts [["backfilling"]] ["active+clean"] [] [] 10
    (by decide) (by decide) (by decide) (by decide) (by decide)
  exact ⟨by decide, by decide, by simpa using h.1, by simpa using h.2⟩

/-- Claim C5: with deadline `D = 600` and interval `I = 10` and a scripted
report sequence on which the predicate is always false,
`run_pool_sanity_check`'s poll terminates with failure at elapsed time 600
(in `[D, D + I)`), having fetched exactly `60 = D / I` times. -/
theorem run_pool_sanity_check_timeout (reports : List (List String))
    (hall : ∀ r ∈ reports, pscPred r = false) (hlen : 60 ≤ reports.length) :
    pscLoop reports 0 600 false 0 0 = .done false 60 60 600
    ∧ run_pool_sanity_check reports = some false
    ∧ 600 ≤ 600 ∧ 600 < 600 + 10 ∧ 60 = 600 / 10 := by
  have h := pscLoop_allFalse 60 (le_refl 60) reports false 0 0 hall hlen
  have h0 : pscLoop reports 0 600 false 0 0 = .done false 60 60 600 := by
    simpa using h
  exact ⟨h0, by simp [run_pool_sanity_check, h0], le_refl _, by omega, rfl⟩

/-- Witness for `run_pool_sanity_check_timeout` on 60 reports that all
carry the `SLOW_OPS` warning. -/
theorem run_pool_sanity_check_timeout_witness :
    (∀ r ∈ List.replicate 60 ["SLOW_OPS"], pscPred r = false)
    ∧ pscLoop (List.replicate 60 ["SLOW_OPS"]) 0 600 false 0 0 = .done false 60 60 600
    ∧ run_pool_sanity_check (List.replicate 60 ["SLOW_OPS"]) = some false := by
  have hall : ∀ r ∈ List.replicate 60 ["SLOW_OPS"], pscPred r = false := by decide
  have h := run_pool_sanity_check_timeout (List.replicate 60 ["SLOW_OPS"]) hall (by decide)
  exact ⟨hall, h.1, h.2.1⟩

/-- Claim C6: when the deadline expires with the predicate never satisfied
(and, for `verify_reweight`, every fetched state collection non-empty),
neither `verify_reweight` nor `run_pool_sanity_check` raises: both report
the timeout as the ordinary return value `False`. -/
theorem poll_timeout_returns_false (vreports preports : List (List String))
    (affected_osds : List Int) (osd_info nodes_end : List OsdNode)
    (hv : ∀ r ∈ vreports, r ≠ [] ∧ vrVerdict r = false) (hvlen : 20 ≤ vreports.length)
    (hp : ∀ r ∈ preports, pscPred r = false) (hplen : 60 ≤ preports.length) :
    verify_reweight vreports affected_osds osd_info nodes_end = some (.ok false)
    ∧ run_pool_sanity_check preports = some false := by
  constructor
  · obtain ⟨l, hl⟩ :=
      vrLoop_allFalse 20 (by omega) (by omega) vreports none none 0 0 hv (by omega)
    have hl0 : vrLoop vreports 0 1200 none none 0 0 = .exited false l 20 20 1200 := by
      simpa using hl
    simp [verify_reweight, hl0]
  · have h := pscLoop_allFalse 60 (le_refl 60) preports false 0 0 hp hplen
    have h0 : pscLoop preports 0 600 false 0 0 = .done false 60 60 600 := by
      simpa using h
    simp [run_pool_sanity_check, h0]

/-- Witness for `poll_timeout_returns_false` on reports that stay
`active+remapped` and health checks that keep `PG_DEGRADED`. -/
theorem poll_timeout_returns_false_witness :
    (∀ r ∈ List.replicate 20 ["active+remapped"], r ≠ [] ∧ vrVerdict r = false)
    ∧ verify_reweight (List.replicate 20 ["active+remapped"]) [] [] [] = some (.ok false)
    ∧ run_pool_sanity_check (List.replicate 60 ["PG_DEGRADED"]) = some false := by
  have hv : ∀ r ∈ List.replicate 20 ["active+remapped"], r ≠ [] ∧ vrVerdict r = false := by
    decide
  have h := poll_timeout_returns_false (List.replicate 20 ["active+remapped"])
    (List.replicate 60 ["PG_DEGRADED"]) [] [] [] hv (by decide) (by decide) (by decide)
  exact ⟨hv, h.1, h.2⟩

/-- Claim C7: deleting a pool that is absent from the cluster returns
`True` without issuing the delete command, leaves the pool list unchanged,
and a second invocation on the resulting state again returns `True`
without issuing the delete command. -/
theorem detete_pool_absent_idempotent (pool : String) (c : Cluster)
    (h : pool ∉ c.pools) :
    (detete_pool pool c).1 = true
    ∧ CephCmd.poolDelete pool ∉ (detete_pool pool c).2.1
    ∧ ((detete_pool pool c).2.2).pools = c.pools
    ∧ (detete_pool pool ((detete_pool pool c).2.2)).1 = true
    ∧ CephCmd.poolDelete pool ∉ (detete_pool pool ((detete_pool pool c).2.2)).2.1 := by
  by_cases hconf : "mon_allow_pool_delete" ∈ c.confNames <;>
    simp [detete_pool, hconf, h]

/-- Witness for `detete_pool_absent_idempotent`: deleting the absent pool
`images` on a cluster that only has `rbd`. -/
theorem detete_pool_absent_idempotent_witness :
    "images" ∉ (Cluster.mk [] ["rbd"]).pools
    ∧ (detete_pool "images" ⟨[], ["rbd"]⟩).1 = true
    ∧ CephCmd.poolDelete "images" ∉ (detete_pool "images" ⟨[], ["rbd"]⟩).2.1
    ∧ (detete_pool "images" ((detete_pool "images" ⟨[], ["rbd"]⟩).2.2)).1 = true := by
  have h : "images" ∉ (Cluster.mk [] ["rbd"]).pools := by decide
  have hall := detete_pool_absent_idempotent "images" ⟨[], ["rbd"]⟩ h
  exact ⟨h, hall.1, hall.2.1, hall.2.2.2.1⟩

/-- Claim C8: when the fetched `num_pg_by_state` collection is empty on the
first poll iteration, `verify_reweight` references its `flag` local before
any assignment — the embedded error branch (Python `NameError`) is
reached, instead of the empty collection counting as "condition not yet
met". -/
theorem verify_reweight_empty_state_name_error (rest : List (List String))
    (affected_osds : List Int) (osd_info nodes_end : List OsdNode) :
    verify_reweight ([] :: rest) affected_osds osd_info nodes_end
      = some (.error .nameError) := by rfl

/-- Claim C9: `check_pg_state` returns the literal empty list when no entry
of the fetched `pg_stats` has the requested PG id (no exception), and
returns the matched entry's `state` value when one is found. -/
theorem check_pg_state_absent_empty_present_state (pgid : String)
    (pg_stats : List PGStat) :
    ((∀ pg ∈ pg_stats, pg.pgid ≠ pgid) → check_pg_state pgid pg_stats = .emptyList)
    ∧ (∀ pg, pg_stats.find? (fun p => p.pgid == pgid) = some pg →
        pg ∈ pg_stats ∧ pg.pgid = pgid
        ∧ check_pg_state pgid pg_stats = .stateOf pg.state) := by
  constructor
  · intro h
    have hn : pg_stats.find? (fun p => p.pgid == pgid) = none := by
      rw [List.find?_eq_none]
      intro x hx
      simpa using h x hx
    simp [check_pg_state, hn]
  · intro pg hfind
    refine ⟨List.mem_of_find?_eq_some hfind, ?_, by simp [check_pg_state, hfind]⟩
    have := List.find?_some hfind
    simpa using this

/-- Witness for `check_pg_state_absent_empty_present_state`: a one-entry
statistics list, queried for an absent id and for the present id. -/
theorem check_pg_state_absent_empty_present_state_witness :
    check_pg_state "2.0" [PGStat.mk "1.0" "active+clean"] = .emptyList
    ∧ check_pg_state "1.0" [PGStat.mk "1.0" "active+clean"] = .stateOf "active+clean" :=
  ⟨(check_pg_state_absent_empty_present_state "2.0" [PGStat.mk "1.0" "active+clean"]).1
     (by decide),
   ((check_pg_state_absent_empty_present_state "1.0" [PGStat.mk "1.0" "active+clean"]).2
     (PGStat.mk "1.0" "active+clean") (by rfl)).2.2⟩

/-- Claim C10: `check_fragmentation_score` returns `False` exactly when the
score lies strictly between 0.9 and 1.0; every score at least 1.0 passes
(returns `True`), even though such a score exceeds the range the method
treats as dangerous. -/
theorem check_fragmentation_score_range (s : ℚ) :
    (check_fragmentation_score s = false ↔ (9 / 10 < s ∧ s < 1))
    ∧ (1 ≤ s → check_fragmentation_score s = true) := by
  unfold check_fragmentation_score
  constructor
  · split_ifs with h
    · simpa using h
    · simpa using h
  · intro h1
    split_ifs with h
    · exact absurd h1 (not_le.mpr h.2)
    · rfl

/-- Witness for `check_fragmentation_score_range` at score 2. -/
theorem check_fragmentation_score_range_witness :
    1 ≤ (2 : ℚ) ∧ check_fragmentation_score 2 = true :=
  ⟨one_le_two, (check_fragmentation_score_range 2).2 one_le_two⟩
